import Mathlib

/-!
Verification development for the fingerprint-backend edge attendance
coordinator.  The Python source is shallowly embedded: the document store
is explicit state (the student_sequence counter row is an
Option Int, attendance maps are insertion-ordered association lists),
HTTP interactions are parameters describing the response, and every
fallible path is modelled by the explicit branch the source takes.
-/

/-! ## Generic string helpers (substring / lower-case / replace / suffix),
    modelling Python `in`, `str.lower`, `str.replace`, `str.endswith`. -/

def lowerChar (c : Char) : Char :=
  if 65 ≤ c.toNat ∧ c.toNat ≤ 90 then Char.ofNat (c.toNat + 32) else c

def lowerStr (s : String) : String :=
  ⟨s.data.map lowerChar⟩

def replaceCharsAux (pat rep : List Char) : Nat → List Char → List Char
  | 0, l => l
  | _ + 1, [] => []
  | fuel + 1, c :: rest =>
    if pat.isPrefixOf (c :: rest) ∧ pat ≠ [] then
      rep ++ replaceCharsAux pat rep fuel (List.drop (pat.length - 1) rest)
    else c :: replaceCharsAux pat rep fuel rest

def strReplace (s pat rep : String) : String :=
  ⟨replaceCharsAux pat.data rep.data s.data.length s.data⟩

def strEndsWith (s suf : String) : Bool :=
  suf.data.reverse.isPrefixOf s.data.reverse

def strContainsAux (n : List Char) : List Char → Bool
  | [] => n.isEmpty
  | c :: rest => n.isPrefixOf (c :: rest) || strContainsAux n rest

/-- Python substring test: strContains hay needle is true iff needle occurs
contiguously in hay. -/
def strContains (hay needle : String) : Bool :=
  strContainsAux needle.data hay.data

/-! ## Association-list dictionaries.
    Python dicts preserve insertion order; assignment to an existing key
    overwrites the value in place, assignment to a fresh key appends, and
    del removes the key. -/

def alGet {α : Type} : List (String × α) → String → Option α
  | [], _ => none
  | (k', v) :: rest, k => if k' = k then some v else alGet rest k

def alSet {α : Type} : List (String × α) → String → α → List (String × α)
  | [], k, v => [(k, v)]
  | (k', v') :: rest, k, v =>
    if k' = k then (k', v) :: rest else (k', v') :: alSet rest k v

def alDel {α : Type} (m : List (String × α)) (k : String) : List (String × α) :=
  m.filter (fun p => p.1 ≠ k)

def alKeys {α : Type} (m : List (String × α)) : List String :=
  m.map Prod.fst

/-! ## Counter model (app/utils/local_id_generator.py, app/utils/id_generator.py).

    The student_sequence counter row is an Option Int (none when the row
    does not exist).  Every local_id_generator function wraps its store
    access in try/except; the storeFails flag selects the except branch,
    and now is int(time.time()) used by the fallback. -/

def fallback_student_id (now : Int) : Int :=
  now % 100000 + 20000

/-- Embeds peek_next_student_id_offline: read the counter without
advancing it (creating it at 10018 when absent, so that the next id is
10019); on a store failure return the time-based fallback id and leave the
store untouched.  Returns (uid, counter row after the call). -/
def peek_next_student_id_offline (storeFails : Bool) (now : Int)
    (c : Option Int) : Int × Option Int :=
  if storeFails then (fallback_student_id now, c)
  else
    match c with
    | none => (10019, some 10018)
    | some v => (v + 1, some v)

/-- Embeds get_next_student_id_offline: advance the counter and return its
new value (creating it at 10019 when absent); on a store failure return
the time-based fallback id and leave the store untouched. -/
def get_next_student_id_offline (storeFails : Bool) (now : Int)
    (c : Option Int) : Int × Option Int :=
  if storeFails then (fallback_student_id now, c)
  else
    match c with
    | none => (10019, some 10019)
    | some v => (v + 1, some (v + 1))

/-- Embeds increment_student_counter: advance the counter by one (creating
it at 10019 when absent); returns (reported success, counter row). -/
def increment_student_counter (storeFails : Bool) (c : Option Int) :
    Bool × Option Int :=
  if storeFails then (false, c)
  else
    match c with
    | none => (true, some 10019)
    | some v => (true, some (v + 1))

/-- Embeds sync_local_counter_with_remote: set the counter row to the
remote uid (inserting the row when absent). -/
def sync_local_counter_with_remote (storeFails : Bool) (remoteUid : Int)
    (c : Option Int) : Bool × Option Int :=
  if storeFails then (false, c) else (true, some remoteUid)

/-- Embeds app/utils/id_generator.py MAX_UID. -/
def MAX_UID : Int := 60000

/-- Embeds get_next_sequence: raise when the existing value is at least
MAX_UID, otherwise advance and return the new value (creating the row at
10022 when absent, without any bound check on that branch). -/
def get_next_sequence (c : Option Int) : Except String (Int × Option Int) :=
  match c with
  | none => .ok (10022, some 10022)
  | some v =>
    if MAX_UID ≤ v then .error "student_sequence value exceeds MAX_UID"
    else .ok (v + 1, some (v + 1))

/-! ## Attendance data model (app/routes/fingerprint_attendance.py).

    A student's attendance map sends a day key to either the boolean True
    (validated attendance) or an offline record with status / timestamp /
    synced / device fields. -/

inductive AttVal : Type
  | validated : AttVal
  | offlineRec (status : Bool) (timestamp : String) (synced : Bool)
      (deviceId deviceName deviceLocation : String) : AttVal
deriving DecidableEq, Repr

abbrev AttMap : Type := List (String × AttVal)

structure StudentDoc : Type where
  uid : Int
  firstName : String
  lastName : String
  attendance : AttMap
deriving DecidableEq, Repr

structure DeviceInfo : Type where
  deviceId : String
  name : String
  location : String
deriving DecidableEq, Repr

/-- HTTP interaction outcome seen by the edge for a single request: either
a response with a status code and body, or a transport-level error
(httpx.HTTPError: network failure, timeout). -/
inductive HttpResp : Type
  | status (code : Nat) (body : String) : HttpResp
  | transportErr (msg : String) : HttpResp
deriving DecidableEq, Repr

/-- Result dict returned by the send_attendance_to_server helpers:
success flag, error text, status_code. -/
structure SendRes : Type where
  success : Bool
  error : String
  statusCode : Nat
deriving DecidableEq, Repr

/-- Embeds send_attendance_to_server (fingerprint_attendance.py
lines 74-90): 200 gives success, any other status gives the response text
as error, and a transport error is collapsed to success=False with
status_code 500. -/
def send_attendance_to_server (r : HttpResp) : SendRes :=
  match r with
  | .status code body =>
    if code == 200 then ⟨true, "", 200⟩ else ⟨false, body, code⟩
  | .transportErr msg => ⟨false, msg, 500⟩

/-- Embeds send_attendance_to_server_approved (fingerprint_attendance.py
lines 92-109); the assistant_approved flag changes the payload, not the
response handling. -/
def send_attendance_to_server_approved (r : HttpResp) : SendRes :=
  match r with
  | .status code body =>
    if code == 200 then ⟨true, "", 200⟩ else ⟨false, body, code⟩
  | .transportErr msg => ⟨false, msg, 500⟩

/-- Embeds send_attendance_to_server of app/services/sync_service.py
(lines 14-39): same collapse of transport errors to success=False with
status_code 500, with prefixed error text. -/
def send_attendance_to_server_sync (r : HttpResp) : SendRes :=
  match r with
  | .status code body =>
    if code == 200 then ⟨true, "", 200⟩
    else ⟨false, "Main backend error (HTTP " ++ toString code ++ "): " ++ body, code⟩
  | .transportErr msg => ⟨false, "HTTP error: " ++ msg, 500⟩

/-- Day key chosen for a validated (online) attendance entry: the entry
count of the map plus one (fingerprint_attendance.py lines 164-166). -/
def onlineDayKey (att : AttMap) : String :=
  "day" ++ toString (att.length + 1)

/-- Embeds the online recording step (lines 164-170): compute
day{len+1} and assign True to it. -/
def recordOnlineAttendance (att : AttMap) : String × AttMap :=
  let k := onlineDayKey att
  (k, alSet att k .validated)

/-- Day key chosen for an offline attendance entry (lines 260-262). -/
def offlineDayKey (att : AttMap) : String :=
  "day" ++ toString (att.length + 1) ++ "_offline"

/-- Embeds the offline recording step (lines 260-273): compute
day{len+1}_offline and assign the offline record with synced=False. -/
def recordOfflineAttendance (att : AttMap) (ts : String) (dev : DeviceInfo) :
    String × AttMap :=
  let k := offlineDayKey att
  (k, alSet att k (.offlineRec true ts false dev.deviceId dev.name dev.location))

/-- Pending decision entry stored in the pending_decisions map
(fingerprint_attendance.py lines 204-214). -/
structure PendingData : Type where
  uid : Int
  studentName : String
  timestamp : String
  errorMsg : String
  student : Option StudentDoc
  deviceId : String
  deviceName : String
  deviceLocation : String
deriving DecidableEq, Repr

abbrev PendMap : Type := List (String × PendingData)

inductive CaptureOutcome : Type
  | approved (dayKey : String) : CaptureOutcome
  | approvedNoStudent : CaptureOutcome
  | decisionPending (decisionId : String) : CaptureOutcome
  | rejected (error : String) (statusCode : Nat) : CaptureOutcome
deriving DecidableEq, Repr

def studentDisplayName (s : Option StudentDoc) : String :=
  match s with
  | some st => st.firstName ++ " " ++ st.lastName
  | none => "Unknown Student"

/-- Policy-rejection test (lines 197-199): HTTP 400 whose error text names
a schedule constraint. -/
def isPolicyReject (res : SendRes) : Bool :=
  res.statusCode == 400 &&
    (strContains res.error "Attendance not allowed on" ||
     strContains res.error "Group schedule")

/-- Embeds the per-event online-mode branch of capture_from_device
(lines 131-240): validate via the remote, then either record day{N}=True
and broadcast APPROVED, open a pending decision on a schedule rejection,
or broadcast REJECTED.  Returns (outcome, student row after, pending map
after); epoch is int(now.timestamp()) and ts its isoformat. -/
def processOnlineCapture (student : Option StudentDoc) (resp : HttpResp)
    (uid epoch : Int) (ts : String) (dev : DeviceInfo) (pend : PendMap) :
    CaptureOutcome × Option StudentDoc × PendMap :=
  let res := send_attendance_to_server resp
  if res.success then
    match student with
    | some st =>
      let r := recordOnlineAttendance st.attendance
      (.approved r.1, some { st with attendance := r.2 }, pend)
    | none => (.approvedNoStudent, none, pend)
  else
    if isPolicyReject res then
      let did := toString uid ++ "_" ++ toString epoch
      (.decisionPending did, student,
        alSet pend did
          ⟨uid, studentDisplayName student, ts, res.error, student,
           dev.deviceId, dev.name, dev.location⟩)
    else (.rejected res.error res.statusCode, student, pend)

/-- Embeds the per-event offline-mode branch of capture_from_device
(lines 241-282): record day{N}_offline with synced=False when the student
exists locally. -/
def processOfflineCapture (student : Option StudentDoc) (ts : String)
    (dev : DeviceInfo) : Option (String × StudentDoc) :=
  match student with
  | some st =>
    let r := recordOfflineAttendance st.attendance ts dev
    some (r.1, { st with attendance := r.2 })
  | none => none

/-! ## Assistant decision arbiter (fingerprint_attendance.py lines 677-739). -/

inductive DecisionRes : Type
  | ok (message : String) : DecisionRes
  | err (message : String) : DecisionRes
deriving DecidableEq, Repr

/-- Embeds process_assistant_decision.  Returns (result, pending map
after, saved student row if any).  On approve with a present student
snapshot the local day{N}=True save happens before the remote POST; a
failed POST returns an error and leaves the pending entry in place.  On
reject the entry is removed without saving.  An unknown decision_id or an
unrecognized verdict changes nothing. -/
def process_assistant_decision (pend : PendMap) (decisionId : String)
    (decision : String) (approvedResp : HttpResp) :
    DecisionRes × PendMap × Option StudentDoc :=
  match alGet pend decisionId with
  | none => (.err "Decision ID not found or already processed", pend, none)
  | some data =>
    if lowerStr decision == "approve" then
      match data.student with
      | some st =>
        let r := recordOnlineAttendance st.attendance
        let st' := { st with attendance := r.2 }
        let res := send_attendance_to_server_approved approvedResp
        if !res.success then (.err res.error, pend, some st')
        else (.ok "Attendance approved and saved", alDel pend decisionId, some st')
      | none => (.err "Invalid decision. Use approve or reject", pend, none)
    else if lowerStr decision == "reject" then
      (.ok "Attendance rejected", alDel pend decisionId, none)
    else (.err "Invalid decision. Use approve or reject", pend, none)

/-! ## Offline attendance drain (app/services/sync_service.py lines 42-82). -/

/-- Guard applied by the drain to each snapshotted offline entry: process
it when its synced flag is false. -/
def isUnsyncedOffline : AttVal → Bool
  | .validated => false
  | .offlineRec _ _ synced _ _ _ => !synced

/-- Embeds the per-entry body of sync_offline_attendance (lines 60-76):
on success assign True to the key with the _offline suffix stripped and
delete the offline key; on any failure (the code only reads the success
flag, so policy rejections and transport errors alike) delete the offline
key. -/
def syncEntryStep (att : AttMap) (dayKey : String) (resp : HttpResp) : AttMap :=
  if (send_attendance_to_server_sync resp).success then
    alDel (alSet att (strReplace dayKey "_offline" "") .validated) dayKey
  else alDel att dayKey

/-- Embeds one drain pass over a single student's attendance map
(lines 51-76): snapshot the keys ending in _offline, then process each
unsynced one in order; resp gives the remote's answer per key. -/
def sync_offline_attendance_student (att : AttMap) (resp : String → HttpResp) :
    AttMap :=
  let offl := att.filter (fun p => strEndsWith p.1 "_offline")
  offl.foldl
    (fun acc p =>
      if isUnsyncedOffline p.2 then syncEntryStep acc p.1 (resp p.1) else acc)
    att

/-! ## Enrollment / registration flow (app/routes/fingerprint.py lines 50-295). -/

/-- Outcome of the remote GET /students/next-ids call. -/
inductive RemoteIds : Type
  | ok (uid : Int) (studentId : String) : RemoteIds
  | httpRespErr : RemoteIds
  | transportErr : RemoteIds
deriving DecidableEq, Repr

/-- Outcome of one enroll_fingerprint_multi_device call. -/
inductive MultiResult : Type
  | ok (template : String) (deviceName : String) : MultiResult
  | fail (error : String) : MultiResult
deriving DecidableEq, Repr

/-- Outcome of the remote POST /students/ call during online registration. -/
inductive CreateResp : Type
  | ok : CreateResp
  | httpErr (statusCode : Nat) (body : String) : CreateResp
  | transportErr : CreateResp
deriving DecidableEq, Repr

/-- Environment of one register_student_with_fingerprint request: the
connectivity probe result, the local-store failure flag and current time
(for the counter helpers), and the outcome of each external interaction
the handler can perform, in source order. -/
structure RegisterEnv : Type where
  online : Bool
  storeFails : Bool
  now : Int
  nextIds : RemoteIds
  multi1 : MultiResult
  deleteSuccess : Bool
  deletedCount : Nat
  multi2 : MultiResult
  singleTemplate : Option String
  createResp : CreateResp
deriving DecidableEq, Repr

inductive RegOutcome : Type
  | created (uid : Int) (offlineMode : Bool) : RegOutcome
  | error (statusCode : Nat) : RegOutcome
deriving DecidableEq, Repr

structure RegResult : Type where
  outcome : RegOutcome
  counter : Option Int
  incCalls : Nat
  studentInserted : Bool
  missingInserted : Bool
deriving DecidableEq, Repr

/-- Detection of a user-already-exists enrollment error (fingerprint.py
line 104), applied to the lower-cased error text. -/
def userExistsErr (e : String) : Bool :=
  strContains (lowerStr e) "already exists" ||
  strContains (lowerStr e) "user with uid" ||
  strContains (lowerStr e) "duplicate"

/-- Final multi-device enrollment result after the delete-and-retry step
(fingerprint.py lines 97-122): a first failure whose text names an
existing user triggers delete_student_from_all_devices and, when that
reports success or deleted from at least one device, a second attempt. -/
def finalMultiResult (env : RegisterEnv) : MultiResult :=
  match env.multi1 with
  | .ok t d => .ok t d
  | .fail msg =>
    if userExistsErr msg then
      if env.deleteSuccess || decide (0 < env.deletedCount) then env.multi2
      else .fail msg
    else .fail msg

/-- Template finally used for the student: the multi-device result, or the
single-device fallback (fingerprint.py lines 124-144); none when every
path failed. -/
def enrollTemplate (env : RegisterEnv) : Option String :=
  match finalMultiResult env with
  | .ok t _ => some t
  | .fail _ => env.singleTemplate

/-- Offline persistence tail of the handler (fingerprint.py lines 233-295):
insert into students and missing_students, then call
increment_student_counter. -/
def offlinePersist (env : RegisterEnv) (uid : Int) (c : Option Int) : RegResult :=
  let c2 := (increment_student_counter env.storeFails c).2
  ⟨.created uid true, c2, 1, true, true⟩

/-- Registration steps after the uid has been fixed (enrollment, then the
online POST with blacklist handling and transport fallback, or the offline
persistence path). -/
def registerAfterIds (env : RegisterEnv) (online : Bool) (uid : Int)
    (c : Option Int) : RegResult :=
  match enrollTemplate env with
  | none => ⟨.error 500, c, 0, false, false⟩
  | some _ =>
    if online then
      match env.createResp with
      | .ok =>
        let c2 := (increment_student_counter env.storeFails c).2
        ⟨.created uid false, c2, 1, true, false⟩
      | .httpErr st body =>
        if strContains (lowerStr body) "blacklist" ||
           strContains (lowerStr body) "same name" then
          ⟨.error st, c, 0, false, false⟩
        else ⟨.error 500, c, 0, false, false⟩
      | .transportErr => offlinePersist env uid c
    else offlinePersist env uid c

/-- Embeds register_student_with_fingerprint: probe connectivity; online,
fetch next-ids from the remote and sync the local counter to uid-1 (a
non-200 aborts with HTTP 500, a transport error falls back to offline
peek); offline, peek the local counter without advancing it; then enroll
and persist. -/
def register (env : RegisterEnv) (c : Option Int) : RegResult :=
  match env.online, env.nextIds with
  | true, .httpRespErr => ⟨.error 500, c, 0, false, false⟩
  | true, .ok u _ =>
    let c1 := (sync_local_counter_with_remote env.storeFails (u - 1) c).2
    registerAfterIds env true u c1
  | true, .transportErr =>
    let r := peek_next_student_id_offline env.storeFails env.now c
    registerAfterIds env false r.1 r.2
  | false, _ =>
    let r := peek_next_student_id_offline env.storeFails env.now c
    registerAfterIds env false r.1 r.2

/-! ## Missing-student sync worker (app/services/sync_service.py lines 85-238).

    Rows are modelled with the fields the worker reads and writes (uid,
    sync_status, sync_attempts).  The remote student collection is the
    list of uids that exist remotely; GET /students/{uid} answers
    truthfully from it, and a successful POST /students/ inserts the uid.
    The getFails oracle makes the GET raise at the transport level (the
    whole per-row body is then caught by the except branch), and the
    postOk oracle decides whether the POST returns 200/201; both are
    keyed by a tick that advances once per processed row. -/

inductive SyncStatus : Type
  | pending | syncing | synced | failed | invalid
deriving DecidableEq, Repr

structure MRow : Type where
  uid : Int
  status : SyncStatus
  attempts : Nat
deriving DecidableEq, Repr

/-- Remote calls the worker performs, with their observed result. -/
inductive RemoteEv : Type
  | getStudent (uid : Int) (found : Bool) : RemoteEv
  | postStudent (uid : Int) (created : Bool) : RemoteEv
deriving DecidableEq, Repr

def evUid : RemoteEv → Int
  | .getStudent u _ => u
  | .postStudent u _ => u

structure SyncState : Type where
  rows : List MRow
  remote : List Int
  tick : Nat
deriving DecidableEq, Repr

/-- Candidate query of the worker (lines 101-109): sync_status pending, or
failed with fewer than three attempts. -/
def isCandidate (r : MRow) : Bool :=
  r.status == .pending || (r.status == .failed && decide (r.attempts < 3))

structure RowStep : Type where
  row : MRow
  remote : List Int
  tick : Nat
  events : List RemoteEv
deriving DecidableEq, Repr

/-- Embeds the per-candidate body (lines 113-202).  Mark syncing and save;
GET the uid (a transport failure lands in the except branch: failed, one
more attempt).  Found: mark synced and delete — the save in the finally
block re-inserts the row as synced with attempts+1, and the end-of-pass
cleanup removes it.  Not found: POST; 200/201 behaves like the found
branch, any other response marks failed with one more attempt. -/
def processRow (getFails postOk : Nat → Int → Bool) (remote : List Int)
    (tick : Nat) (r : MRow) : RowStep :=
  if getFails tick r.uid then
    ⟨{ r with status := .failed, attempts := r.attempts + 1 }, remote, tick + 1, []⟩
  else if r.uid ∈ remote then
    ⟨{ r with status := .synced, attempts := r.attempts + 1 }, remote, tick + 1,
      [.getStudent r.uid true]⟩
  else if postOk tick r.uid then
    ⟨{ r with status := .synced, attempts := r.attempts + 1 }, r.uid :: remote,
      tick + 1, [.getStudent r.uid false, .postStudent r.uid true]⟩
  else
    ⟨{ r with status := .failed, attempts := r.attempts + 1 }, remote, tick + 1,
      [.getStudent r.uid false, .postStudent r.uid false]⟩

structure RowsStep : Type where
  rows : List MRow
  remote : List Int
  tick : Nat
  events : List RemoteEv
deriving DecidableEq, Repr

/-- Process the snapshot of rows in order, transforming exactly the
candidates (the snapshot is taken before the loop, and processing one row
never changes another row, so filtering inline is equivalent). -/
def runRows (getFails postOk : Nat → Int → Bool) (remote : List Int)
    (tick : Nat) : List MRow → RowsStep
  | [] => ⟨[], remote, tick, []⟩
  | r :: rs =>
    if isCandidate r then
      let s := processRow getFails postOk remote tick r
      let t := runRows getFails postOk s.remote s.tick rs
      ⟨s.row :: t.rows, t.remote, t.tick, s.events ++ t.events⟩
    else
      let t := runRows getFails postOk remote tick rs
      ⟨r :: t.rows, t.remote, t.tick, t.events⟩

/-- One worker pass over the missing_students collection: process the
candidates, then cleanup_synced_students_from_missing deletes every row
marked synced (lines 204-238). -/
def runPass (getFails postOk : Nat → Int → Bool) (st : SyncState) :
    SyncState × List RemoteEv :=
  let t := runRows getFails postOk st.remote st.tick st.rows
  (⟨t.rows.filter (fun r => !(r.status == .synced)), t.remote, t.tick⟩, t.events)

/-- Iterate worker passes; the onl oracle is the per-pass connectivity
probe (an offline pass sleeps and touches nothing). -/
def runPasses (onl : Nat → Bool) (getFails postOk : Nat → Int → Bool) :
    Nat → SyncState → SyncState × List RemoteEv
  | 0, st => (st, [])
  | n + 1, st =>
    let first := if onl n then runPass getFails postOk st else (st, [])
    let rest := runPasses onl getFails postOk n first.1
    (rest.1, first.2 ++ rest.2)

/-- Number of POST /students/ calls for uid u that actually created a
record. -/
def countCreates (u : Int) : List RemoteEv → Nat
  | [] => 0
  | .postStudent u' true :: rest => (if u' = u then 1 else 0) + countCreates u rest
  | .postStudent _ false :: rest => countCreates u rest
  | .getStudent _ _ :: rest => countCreates u rest

/-- Invariant tying a segment of the worker's remote-call trace to the
remote uid set before (a) and after (b) the segment: membership is
monotone, a uid already present sees no creating POST, a segment creates
a given uid at most once, and a created uid is present afterwards. -/
def PostInv (u : Int) (a b : List Int) (evs : List RemoteEv) : Prop :=
  (u ∈ a → u ∈ b) ∧ (u ∈ a → countCreates u evs = 0) ∧
  countCreates u evs ≤ 1 ∧ (1 ≤ countCreates u evs → u ∈ b)

/-- No row of the list with the given uid is a sync candidate. -/
def NoCandUid (u : Int) (rows : List MRow) : Prop :=
  ∀ r ∈ rows, r.uid = u → isCandidate r = false

/-! ## Helper lemmas about association-list dictionaries. -/

theorem alSet_not_mem {α : Type} (m : List (String × α)) (k : String) (v : α)
    (h : k ∉ alKeys m) : alSet m k v = m ++ [(k, v)] := by
  induction m with
  | nil => rfl
  | cons p rest ih =>
    simp only [alKeys, List.map_cons, List.mem_cons] at h
    push_neg at h
    obtain ⟨p1, p2⟩ := p
    simp only [alSet]
    rw [if_neg (fun he => h.1 he.symm), ih h.2]
    rfl

theorem alDel_of_not_mem {α : Type} (m : List (String × α)) (k : String)
    (h : k ∉ alKeys m) : alDel m k = m := by
  induction m with
  | nil => rfl
  | cons p rest ih =>
    simp only [alKeys, List.map_cons, List.mem_cons] at h
    push_neg at h
    simp only [alDel, List.filter_cons]
    rw [if_pos (by simpa using fun he => h.1 he.symm)]
    have := ih h.2
    simp only [alDel] at this
    rw [this]

theorem alDel_length_of_mem {α : Type} (m : List (String × α)) (k : String)
    (hnd : (alKeys m).Nodup) (hk : k ∈ alKeys m) :
    (alDel m k).length + 1 = m.length := by
  induction m with
  | nil => simp [alKeys] at hk
  | cons p rest ih =>
    simp only [alKeys, List.map_cons, List.nodup_cons] at hnd
    simp only [alKeys, List.map_cons, List.mem_cons] at hk
    by_cases hpk : p.1 = k
    · have hrest : k ∉ alKeys rest := by
        rw [← hpk]
        exact hnd.1
      simp only [alDel, List.filter_cons]
      rw [if_neg (by simpa using hpk)]
      have := alDel_of_not_mem rest k hrest
      simp only [alDel] at this
      rw [this]
      simp
    · have hk' : k ∈ alKeys rest := by
        rcases hk with h | h
        · exact absurd h.symm hpk
        · exact h
      simp only [alDel, List.filter_cons]
      rw [if_pos (by simpa using hpk)]
      have := ih hnd.2 hk'
      simp only [alDel] at this
      simp only [List.length_cons]
      omega

theorem alGet_of_not_mem {α : Type} (m : List (String × α)) (k : String)
    (h : k ∉ alKeys m) : alGet m k = none := by
  induction m with
  | nil => rfl
  | cons p rest ih =>
    simp only [alKeys, List.map_cons, List.mem_cons] at h
    push_neg at h
    obtain ⟨p1, p2⟩ := p
    simp only [alGet]
    rw [if_neg (fun he => h.1 he.symm)]
    exact ih h.2

theorem not_mem_alKeys_alDel {α : Type} (m : List (String × α)) (k : String) :
    k ∉ alKeys (alDel m k) := by
  intro h
  simp only [alDel, alKeys, List.mem_map] at h
  obtain ⟨q, hq, he⟩ := h
  have := (List.mem_filter.mp hq).2
  simp [he] at this

theorem alKeys_alDel_subset {α : Type} (m : List (String × α)) (k k' : String)
    (h : k' ∈ alKeys (alDel m k)) : k' ∈ alKeys m := by
  simp only [alDel, alKeys, List.mem_map] at h ⊢
  obtain ⟨q, hq, he⟩ := h
  exact ⟨q, (List.mem_filter.mp hq).1, he⟩

theorem alGet_append_right {α : Type} (m m' : List (String × α)) (k : String)
    (h : k ∉ alKeys m) : alGet (m ++ m') k = alGet m' k := by
  induction m with
  | nil => rfl
  | cons p rest ih =>
    simp only [alKeys, List.map_cons, List.mem_cons] at h
    push_neg at h
    obtain ⟨p1, p2⟩ := p
    simp only [List.cons_append, alGet]
    rw [if_neg (fun he => h.1 he.symm)]
    exact ih h.2

theorem alDel_append {α : Type} (m m' : List (String × α)) (k : String) :
    alDel (m ++ m') k = alDel m k ++ alDel m' k := by
  simp [alDel, List.filter_append]

/-! ## Claim theorems. -/

/-- C8: for every value v, after sync_local_counter_with_remote(v) the
counter row holds v, the next peek_next_student_id_offline returns
uid = v + 1 without changing the counter, and repeated peeks without an
intervening increment all return the same id. -/
theorem sync_then_peek_round_trip (v : Int) (c c' : Option Int) (now : Int) :
    (sync_local_counter_with_remote false v c).2 = some v
    ∧ (peek_next_student_id_offline false now
        (sync_local_counter_with_remote false v c).2).1 = v + 1
    ∧ (peek_next_student_id_offline false now
        (sync_local_counter_with_remote false v c).2).2
      = (sync_local_counter_with_remote false v c).2
    ∧ (peek_next_student_id_offline false now
        (peek_next_student_id_offline false now c').2).1
      = (peek_next_student_id_offline false now c').1 := by
  refine ⟨rfl, rfl, rfl, ?_⟩
  cases c' <;> rfl

/-- C10: when the counter lookup raises, peek_next_student_id_offline and
get_next_student_id_offline swallow the error and return the fallback uid
int(time) mod 100000 + 20000, an integer in [20000, 119999] that does not
depend on the counter and leaves it untouched; consequently two
store-failure allocations can collide (same time, any counters) and a
later allocation can return a smaller uid than an earlier one. -/
theorem store_failure_fallback_id (now : Int) (c c' : Option Int) :
    peek_next_student_id_offline true now c = (now % 100000 + 20000, c)
    ∧ get_next_student_id_offline true now c = (now % 100000 + 20000, c)
    ∧ 20000 ≤ fallback_student_id now
    ∧ fallback_student_id now ≤ 119999
    ∧ (peek_next_student_id_offline true now c).1
      = (get_next_student_id_offline true now c').1
    ∧ fallback_student_id 100000 < fallback_student_id 99999 := by
  refine ⟨rfl, rfl, ?_, ?_, rfl, by decide⟩ <;>
    · unfold fallback_student_id
      omega

/-- C2 counterexample: with the orchestrator in online mode, a
transport-level failure of the validation POST (modelled by
httpx raising, which send_attendance_to_server converts to
success=False with status_code 500) is broadcast as REJECTED and the
student's attendance map stays empty — no day1_offline entry with
synced=false is recorded, contrary to the claim. -/
theorem capture_transport_failure_cex :
    processOnlineCapture (some ⟨10019, "A", "B", []⟩)
        (.transportErr "Connection refused") 10019 1700000000
        "2025-01-01T10:00:00" ⟨"dev1", "Device 1", "Room A"⟩ []
      = (.rejected "Connection refused" 500, some ⟨10019, "A", "B", []⟩, [])
    ∧ alGet ([] : AttMap) "day1_offline" = none := by
  exact ⟨rfl, rfl⟩

/-- C2 amended: in online mode a transport failure of the validation POST
yields the REJECTED outcome with status_code 500, leaving the student row
and the pending-decision map unchanged (no offline entry is recorded);
the day{N}_offline record with synced=false is written only by the
offline-mode branch, which runs when the connectivity probe at loop start
said offline. -/
theorem capture_transport_failure_behavior (s : StudentDoc) (m ts : String)
    (uid epoch : Int) (dev : DeviceInfo) (pend : PendMap) :
    processOnlineCapture (some s) (.transportErr m) uid epoch ts dev pend
      = (.rejected m 500, some s, pend)
    ∧ processOfflineCapture (some s) ts dev
      = some (offlineDayKey s.attendance,
          { s with attendance := (recordOfflineAttendance s.attendance ts dev).2 })
    ∧ (recordOfflineAttendance s.attendance ts dev).2
      = alSet s.attendance (offlineDayKey s.attendance)
          (AttVal.offlineRec true ts false dev.deviceId dev.name dev.location) := by
  exact ⟨rfl, rfl, rfl⟩

/-- C5 counterexample: on the attendance map with the single key day2
(reachable: record day1_offline and day2_offline offline, then let the
drain drop day1_offline as rejected and promote day2_offline to day2),
the event is recorded under day{len+1} = day2 even though day1 is unused
and smaller, and the existing day2 entry is overwritten: the map does not
grow.  The offline variant collides the same way. -/
theorem day_key_overwrite_cex :
    (recordOnlineAttendance [("day2", .validated)]).1 = "day2"
    ∧ alGet [("day2", AttVal.validated)] "day1" = none
    ∧ alGet [("day2", AttVal.validated)] "day2" = some .validated
    ∧ (recordOnlineAttendance [("day2", .validated)]).2 = [("day2", .validated)]
    ∧ (recordOnlineAttendance [("day2", .validated)]).2.length = 1
    ∧ (recordOfflineAttendance
        [("day2_offline", .offlineRec true "t1" false "d" "n" "l")] "t2"
        ⟨"d", "n", "l"⟩).1 = "day2_offline"
    ∧ (recordOfflineAttendance
        [("day2_offline", .offlineRec true "t1" false "d" "n" "l")] "t2"
        ⟨"d", "n", "l"⟩).2.length = 1 := by
  refine ⟨rfl, rfl, rfl, rfl, rfl, by decide, by decide⟩

/-- C5 amended: the recorded key is day{len+1} (resp. day{len+1}_offline)
computed from the entry count, not the smallest unused key; when that
count-based key is absent from the map — in particular whenever the
existing keys are contiguous day1..dayN variants — the entry is appended
and nothing is overwritten, but on maps with gaps (reachable through the
drain's delete-on-rejection policy) it can coincide with an existing key
and overwrite it. -/
theorem day_key_count_based (att : AttMap) (ts : String) (dev : DeviceInfo)
    (h1 : onlineDayKey att ∉ alKeys att)
    (h2 : offlineDayKey att ∉ alKeys att) :
    (recordOnlineAttendance att).1 = "day" ++ toString (att.length + 1)
    ∧ (recordOfflineAttendance att ts dev).1
      = "day" ++ toString (att.length + 1) ++ "_offline"
    ∧ (recordOnlineAttendance att).2 = att ++ [(onlineDayKey att, .validated)]
    ∧ (recordOfflineAttendance att ts dev).2
      = att ++ [(offlineDayKey att,
          .offlineRec true ts false dev.deviceId dev.name dev.location)]
    ∧ (recordOnlineAttendance att).2.length = att.length + 1
    ∧ (recordOfflineAttendance att ts dev).2.length = att.length + 1 := by
  have e1 := alSet_not_mem att (onlineDayKey att) AttVal.validated h1
  have e2 := alSet_not_mem att (offlineDayKey att)
    (AttVal.offlineRec true ts false dev.deviceId dev.name dev.location) h2
  refine ⟨rfl, rfl, ?_, ?_, ?_, ?_⟩
  · simpa [recordOnlineAttendance] using e1
  · simpa [recordOfflineAttendance] using e2
  · simp [recordOnlineAttendance, e1]
  · simp [recordOfflineAttendance, e2]

/-- C5 amended witness: concrete instance on the empty map. -/
theorem day_key_count_based_witness :
    (onlineDayKey [] ∉ alKeys ([] : AttMap))
    ∧ ((recordOnlineAttendance []).1 = "day" ++ toString (List.length ([] : AttMap) + 1)
      ∧ (recordOfflineAttendance [] "t" ⟨"d", "n", "l"⟩).1
        = "day" ++ toString (List.length ([] : AttMap) + 1) ++ "_offline"
      ∧ (recordOnlineAttendance []).2 = [] ++ [(onlineDayKey [], .validated)]
      ∧ (recordOfflineAttendance [] "t" ⟨"d", "n", "l"⟩).2
        = [] ++ [(offlineDayKey [], .offlineRec true "t" false "d" "n" "l")]
      ∧ (recordOnlineAttendance []).2.length = List.length ([] : AttMap) + 1
      ∧ (recordOfflineAttendance [] "t" ⟨"d", "n", "l"⟩).2.length
        = List.length ([] : AttMap) + 1) :=
  ⟨by decide, day_key_count_based [] "t" ⟨"d", "n", "l"⟩ (by decide) (by decide)⟩

/-- C6 counterexample: the enrollment path allocates through the
local_id_generator helpers, which carry no MAX_UID check.  With the
counter at 60000 = MAX_UID, an offline registration with a successful
enrollment is accepted (no CounterExhausted error), allocates uid 60001
and leaves the counter at 60001 > MAX_UID; increment_student_counter
alone already pushes the value past the bound. -/
theorem counter_max_uid_cex :
    (register ⟨false, false, 0, .transportErr, .ok "TPL" "dev1", false, 0,
        .fail "", none, .ok⟩ (some 60000)).outcome = .created 60001 true
    ∧ (register ⟨false, false, 0, .transportErr, .ok "TPL" "dev1", false, 0,
        .fail "", none, .ok⟩ (some 60000)).counter = some 60001
    ∧ (increment_student_counter false (some MAX_UID)).1 = true
    ∧ (increment_student_counter false (some MAX_UID)).2 = some (MAX_UID + 1)
    ∧ MAX_UID < MAX_UID + 1 := by
  refine ⟨by decide, by decide, rfl, rfl, by decide⟩

/-- C6 amended: only the get_next_sequence allocator of
app/utils/id_generator.py — which no code path calls — enforces MAX_UID:
it raises when the stored value is at least MAX_UID and every value it
successfully stores is at most MAX_UID.  The enrollment path's
increment_student_counter has no bound check: at any value v it reports
success and stores v + 1, so the student_sequence counter can exceed
MAX_UID. -/
theorem max_uid_enforcement (v : Int) (hv : MAX_UID ≤ v) :
    get_next_sequence (some v) = .error "student_sequence value exceeds MAX_UID"
    ∧ (∀ c r, get_next_sequence c = .ok r → ∃ w, r.2 = some w ∧ w ≤ MAX_UID)
    ∧ (increment_student_counter false (some v)).1 = true
    ∧ (increment_student_counter false (some v)).2 = some (v + 1) := by
  refine ⟨by simp [get_next_sequence, hv], ?_, rfl, rfl⟩
  intro c r h
  cases c with
  | none =>
    simp only [get_next_sequence] at h
    cases h
    exact ⟨10022, rfl, by decide⟩
  | some w0 =>
    by_cases hw : MAX_UID ≤ w0
    · simp [get_next_sequence, hw] at h
    · simp only [get_next_sequence, if_neg hw] at h
      cases h
      exact ⟨w0 + 1, rfl, by unfold MAX_UID at hw ⊢; omega⟩

/-- C6 amended witness: concrete instance at v = 60000. -/
theorem max_uid_enforcement_witness :
    MAX_UID ≤ (60000 : Int)
    ∧ (get_next_sequence (some 60000)
        = .error "student_sequence value exceeds MAX_UID"
      ∧ (∀ c r, get_next_sequence c = .ok r → ∃ w, r.2 = some w ∧ w ≤ MAX_UID)
      ∧ (increment_student_counter false (some 60000)).1 = true
      ∧ (increment_student_counter false (some 60000)).2 = some (60000 + 1)) :=
  ⟨by decide, max_uid_enforcement 60000 (by decide)⟩

/-- C1 counterexample: an online registration obtains uid 50000 from the
remote next-ids call and syncs the local counter to 49999 before the
biometric step; when multi-device enrollment and the single-device
fallback then both fail, the request is rejected with HTTP 500 and
increment_student_counter is never called, but the counter has moved from
10018 to 49999, and a subsequent peek returns 50000 instead of the 10019
it returned before the attempt — so the counter is not unchanged. -/
theorem register_failed_enrollment_cex :
    (register ⟨true, false, 0, .ok 50000 "50000", .fail "no devices connected",
        false, 0, .fail "", none, .ok⟩ (some 10018)).outcome = .error 500
    ∧ (register ⟨true, false, 0, .ok 50000 "50000", .fail "no devices connected",
        false, 0, .fail "", none, .ok⟩ (some 10018)).incCalls = 0
    ∧ (register ⟨true, false, 0, .ok 50000 "50000", .fail "no devices connected",
        false, 0, .fail "", none, .ok⟩ (some 10018)).counter = some 49999
    ∧ some (49999 : Int) ≠ some (10018 : Int)
    ∧ (peek_next_student_id_offline false 0 (some 49999)).1 = 50000
    ∧ (peek_next_student_id_offline false 0 (some 10018)).1 = 10019
    ∧ (50000 : Int) ≠ 10019 := by
  refine ⟨by decide, by decide, by decide, by decide, rfl, rfl, by decide⟩

/-- C1 amended: when enrollment fails on every path (multi-device after
the delete-and-retry step, and the single-device fallback), the request
is rejected with HTTP 500, increment_student_counter is never called and
nothing is persisted; in offline mode and in the online-to-offline
fallback the counter row is unchanged, but in online mode with a
successful next-ids call the counter was already set to remote_uid - 1 by
the pre-enrollment sync, so it ends at remote_uid - 1 rather than at its
pre-request value. -/
theorem register_failed_enrollment_counter (env : RegisterEnv) (v : Int)
    (henroll : enrollTemplate env = none) :
    (register env (some v)).outcome = .error 500
    ∧ (register env (some v)).incCalls = 0
    ∧ (register env (some v)).studentInserted = false
    ∧ (register env (some v)).missingInserted = false
    ∧ (register env (some v)).counter
      = (match env.online, env.nextIds with
         | true, .ok u _ => if env.storeFails then some v else some (u - 1)
         | _, _ => some v) := by
  cases ho : env.online <;> cases hn : env.nextIds <;>
    cases hf : env.storeFails <;>
      simp [register, registerAfterIds, henroll, ho, hn, hf,
        peek_next_student_id_offline, sync_local_counter_with_remote]

/-- C1 amended witness: concrete offline registration whose enrollment
fails everywhere; the counter stays at 10018. -/
theorem register_failed_enrollment_counter_witness :
    enrollTemplate ⟨false, false, 0, .transportErr, .fail "scanner offline",
        false, 0, .fail "", none, .ok⟩ = none
    ∧ ((register ⟨false, false, 0, .transportErr, .fail "scanner offline",
          false, 0, .fail "", none, .ok⟩ (some 10018)).outcome = .error 500
      ∧ (register ⟨false, false, 0, .transportErr, .fail "scanner offline",
          false, 0, .fail "", none, .ok⟩ (some 10018)).incCalls = 0
      ∧ (register ⟨false, false, 0, .transportErr, .fail "scanner offline",
          false, 0, .fail "", none, .ok⟩ (some 10018)).studentInserted = false
      ∧ (register ⟨false, false, 0, .transportErr, .fail "scanner offline",
          false, 0, .fail "", none, .ok⟩ (some 10018)).missingInserted = false
      ∧ (register ⟨false, false, 0, .transportErr, .fail "scanner offline",
          false, 0, .fail "", none, .ok⟩ (some 10018)).counter
        = (match (false : Bool), RemoteIds.transportErr with
           | true, .ok u _ => if false then some (10018 : Int) else some (u - 1)
           | _, _ => some (10018 : Int))) :=
  ⟨by decide, register_failed_enrollment_counter
    ⟨false, false, 0, .transportErr, .fail "scanner offline",
        false, 0, .fail "", none, .ok⟩ 10018 (by decide)⟩

/-- C3 counterexample: a drain pass over a student holding one unsynced
offline entry whose POST fails at the transport level (httpx raises; the
sync helper converts this to success=False with status_code 500) deletes
the entry instead of leaving it for a later pass: the caller only reads
the success flag and cannot tell a policy rejection from a transport
failure. -/
theorem drain_transport_failure_cex :
    sync_offline_attendance_student
        [("day1_offline",
          .offlineRec true "2025-01-01T09:00:00" false "dev1" "Device 1" "Room A")]
        (fun _ => .transportErr "timeout") = []
    ∧ isUnsyncedOffline
        (.offlineRec true "2025-01-01T09:00:00" false "dev1" "Device 1" "Room A")
      = true := by
  exact ⟨by decide, rfl⟩

/-- C3 amended: for an unsynced offline entry processed by the drain, a
200 response renames the key (assign True to the key with the _offline
suffix stripped, then delete the offline key; the total key count is
preserved when the stripped key was not already present); any non-200
response and any transport failure alike delete the entry — transport
failures are not left for a later pass. -/
theorem drain_entry_behavior (att : AttMap) (k body m : String) (code : Nat)
    (hcode : code ≠ 200) (hk : k ∈ alKeys att)
    (hfresh : strReplace k "_offline" "" ∉ alKeys att)
    (hnd : (alKeys att).Nodup) :
    syncEntryStep att k (.status 200 body)
      = alDel (alSet att (strReplace k "_offline" "") .validated) k
    ∧ syncEntryStep att k (.status code body) = alDel att k
    ∧ syncEntryStep att k (.transportErr m) = alDel att k
    ∧ alGet (syncEntryStep att k (.status 200 body)) k = none
    ∧ (syncEntryStep att k (.status 200 body)).length = att.length
    ∧ alGet (syncEntryStep att k (.status 200 body)) (strReplace k "_offline" "")
      = some .validated := by
  have hne : strReplace k "_offline" "" ≠ k := by
    intro he
    rw [he] at hfresh
    exact hfresh hk
  have hset : alSet att (strReplace k "_offline" "") AttVal.validated
      = att ++ [(strReplace k "_offline" "", AttVal.validated)] :=
    alSet_not_mem att _ _ hfresh
  have hstep : syncEntryStep att k (.status 200 body)
      = alDel (alSet att (strReplace k "_offline" "") .validated) k := rfl
  have hsingle : alDel [(strReplace k "_offline" "", AttVal.validated)] k
      = [(strReplace k "_offline" "", AttVal.validated)] := by
    simp [alDel, List.filter_cons, hne]
  have hform : syncEntryStep att k (.status 200 body)
      = alDel att k ++ [(strReplace k "_offline" "", AttVal.validated)] := by
    rw [hstep, hset, alDel_append, hsingle]
  refine ⟨hstep, ?_, rfl, ?_, ?_, ?_⟩
  · have hs : (send_attendance_to_server_sync (.status code body)).success = false := by
      simp only [send_attendance_to_server_sync]
      rw [if_neg (by simpa using hcode)]
    simp [syncEntryStep, hs]
  · exact alGet_of_not_mem _ k (by rw [hstep]; exact not_mem_alKeys_alDel _ k)
  · rw [hform]
    have := alDel_length_of_mem att k hnd hk
    simp only [List.length_append, List.length_cons, List.length_nil]
    omega
  · rw [hform]
    have hnot : strReplace k "_offline" "" ∉ alKeys (alDel att k) := by
      intro hmem
      exact hfresh (alKeys_alDel_subset att k _ hmem)
    rw [alGet_append_right _ _ _ hnot]
    simp [alGet]

/-- C3 amended witness: concrete two-entry map, rejected with HTTP 400 and
renamed on HTTP 200. -/
theorem drain_entry_behavior_witness :
    ((400 : Nat) ≠ 200
      ∧ "day1_offline" ∈ alKeys
          [("x", AttVal.validated),
           ("day1_offline", AttVal.offlineRec true "t0" false "d" "n" "l")]
      ∧ strReplace "day1_offline" "_offline" "" ∉ alKeys
          [("x", AttVal.validated),
           ("day1_offline", AttVal.offlineRec true "t0" false "d" "n" "l")]
      ∧ (alKeys [("x", AttVal.validated),
           ("day1_offline", AttVal.offlineRec true "t0" false "d" "n" "l")]).Nodup)
    ∧ (syncEntryStep
        [("x", AttVal.validated),
         ("day1_offline", AttVal.offlineRec true "t0" false "d" "n" "l")]
        "day1_offline" (.status 400 "ok")
      = alDel [("x", AttVal.validated),
         ("day1_offline", AttVal.offlineRec true "t0" false "d" "n" "l")]
        "day1_offline"
      ∧ (syncEntryStep
          [("x", AttVal.validated),
           ("day1_offline", AttVal.offlineRec true "t0" false "d" "n" "l")]
          "day1_offline" (.status 200 "ok")).length
        = List.length
            [("x", AttVal.validated),
             ("day1_offline", AttVal.offlineRec true "t0" false "d" "n" "l")]) := by
  have h := drain_entry_behavior
    [("x", AttVal.validated),
     ("day1_offline", AttVal.offlineRec true "t0" false "d" "n" "l")]
    "day1_offline" "ok" "m" 400 (by decide) (by decide) (by decide) (by decide)
  exact ⟨⟨by decide, by decide, by decide, by decide⟩, h.2.1, h.2.2.2.2.1⟩

/-- C9 counterexample: an approve verdict whose remote POST fails at the
transport level returns an error and leaves the pending decision in the
map (the del only runs on the success path), so processing a verdict does
not always remove the entry; the locally saved day1=True mutation is kept
even though the verdict failed. -/
theorem decision_approve_failure_cex :
    process_assistant_decision
        [("10019_1700000000",
          ⟨10019, "A B", "2025-01-01T10:00:00",
           "Attendance not allowed on Monday", some ⟨10019, "A", "B", []⟩,
           "dev1", "Device 1", "Room A"⟩)]
        "10019_1700000000" "approve" (.transportErr "timeout")
      = (.err "timeout",
         [("10019_1700000000",
           ⟨10019, "A B", "2025-01-01T10:00:00",
            "Attendance not allowed on Monday", some ⟨10019, "A", "B", []⟩,
            "dev1", "Device 1", "Room A"⟩)],
         some ⟨10019, "A", "B", [("day1", .validated)]⟩)
    ∧ alGet
        [("10019_1700000000",
          (⟨10019, "A B", "2025-01-01T10:00:00",
           "Attendance not allowed on Monday", some ⟨10019, "A", "B", []⟩,
           "dev1", "Device 1", "Room A"⟩ : PendingData))]
        "10019_1700000000" ≠ none := by
  exact ⟨by decide, by decide⟩

/-- C9 amended: a reject verdict removes the pending entry; an approve
verdict removes it only when the stored student snapshot is present and
the remote assistant-approved POST succeeds — a failing POST (or a
missing snapshot) returns an error and leaves the entry pending; a
verdict on an unknown decision_id fails and changes nothing. -/
theorem decision_verdict_behavior (pend : PendMap) (d : String)
    (data : PendingData) (resp : HttpResp)
    (hfound : alGet pend d = some data) :
    (∀ d', alGet pend d' = none →
      process_assistant_decision pend d' "approve" resp
        = (.err "Decision ID not found or already processed", pend, none)
      ∧ process_assistant_decision pend d' "reject" resp
        = (.err "Decision ID not found or already processed", pend, none))
    ∧ process_assistant_decision pend d "reject" resp
      = (.ok "Attendance rejected", alDel pend d, none)
    ∧ (∀ st, data.student = some st →
        (send_attendance_to_server_approved resp).success = true →
        process_assistant_decision pend d "approve" resp
          = (.ok "Attendance approved and saved", alDel pend d,
             some { st with attendance := (recordOnlineAttendance st.attendance).2 }))
    ∧ (∀ st, data.student = some st →
        (send_attendance_to_server_approved resp).success = false →
        process_assistant_decision pend d "approve" resp
          = (.err (send_attendance_to_server_approved resp).error, pend,
             some { st with attendance := (recordOnlineAttendance st.attendance).2 }))
    ∧ (data.student = none →
        process_assistant_decision pend d "approve" resp
          = (.err "Invalid decision. Use approve or reject", pend, none)) := by
  refine ⟨?_, ?_, ?_, ?_, ?_⟩
  · intro d' h0
    constructor <;> simp [process_assistant_decision, h0]
  · unfold process_assistant_decision
    rw [hfound]
    simp [show (lowerStr "reject" == "approve") = false from rfl,
      show (lowerStr "reject" == "reject") = true from rfl]
  · intro st hst hsucc
    unfold process_assistant_decision
    rw [hfound]
    simp [show (lowerStr "approve" == "approve") = true from rfl, hst, hsucc]
  · intro st hst hsucc
    unfold process_assistant_decision
    rw [hfound]
    simp [show (lowerStr "approve" == "approve") = true from rfl, hst, hsucc]
  · intro h0
    unfold process_assistant_decision
    rw [hfound]
    simp [show (lowerStr "approve" == "approve") = true from rfl, h0]

/-- C9 amended witness: concrete pending map exercising the reject,
approve-success, approve-failure and unknown-id cases. -/
theorem decision_verdict_behavior_witness :
    alGet
        [("10019_1700000000",
          (⟨10019, "A B", "t0", "reason", some ⟨10019, "A", "B", []⟩,
            "dev1", "Device 1", "Room A"⟩ : PendingData))]
        "10019_1700000000"
      = some ⟨10019, "A B", "t0", "reason", some ⟨10019, "A", "B", []⟩,
          "dev1", "Device 1", "Room A"⟩
    ∧ process_assistant_decision
        [("10019_1700000000",
          ⟨10019, "A B", "t0", "reason", some ⟨10019, "A", "B", []⟩,
            "dev1", "Device 1", "Room A"⟩)]
        "10019_1700000000" "reject" (.status 200 "")
      = (.ok "Attendance rejected",
         alDel
           [("10019_1700000000",
             ⟨10019, "A B", "t0", "reason", some ⟨10019, "A", "B", []⟩,
               "dev1", "Device 1", "Room A"⟩)]
           "10019_1700000000", none)
    ∧ process_assistant_decision
        [("10019_1700000000",
          ⟨10019, "A B", "t0", "reason", some ⟨10019, "A", "B", []⟩,
            "dev1", "Device 1", "Room A"⟩)]
        "10019_1700000000" "approve" (.status 200 "")
      = (.ok "Attendance approved and saved",
         alDel
           [("10019_1700000000",
             ⟨10019, "A B", "t0", "reason", some ⟨10019, "A", "B", []⟩,
               "dev1", "Device 1", "Room A"⟩)]
           "10019_1700000000",
         some ⟨10019, "A", "B", (recordOnlineAttendance []).2⟩)
    ∧ process_assistant_decision
        [("10019_1700000000",
          ⟨10019, "A B", "t0", "reason", some ⟨10019, "A", "B", []⟩,
            "dev1", "Device 1", "Room A"⟩)]
        "10019_1700000000" "approve" (.transportErr "x")
      = (.err (send_attendance_to_server_approved (.transportErr "x")).error,
         [("10019_1700000000",
           ⟨10019, "A B", "t0", "reason", some ⟨10019, "A", "B", []⟩,
             "dev1", "Device 1", "Room A"⟩)],
         some ⟨10019, "A", "B", (recordOnlineAttendance []).2⟩)
    ∧ process_assistant_decision
        [("10019_1700000000",
          ⟨10019, "A B", "t0", "reason", some ⟨10019, "A", "B", []⟩,
            "dev1", "Device 1", "Room A"⟩)]
        "unknown" "approve" (.status 200 "")
      = (.err "Decision ID not found or already processed",
         [("10019_1700000000",
           ⟨10019, "A B", "t0", "reason", some ⟨10019, "A", "B", []⟩,
             "dev1", "Device 1", "Room A"⟩)], none) := by
  have h1 := decision_verdict_behavior
    [("10019_1700000000",
      ⟨10019, "A B", "t0", "reason", some ⟨10019, "A", "B", []⟩,
        "dev1", "Device 1", "Room A"⟩)]
    "10019_1700000000"
    ⟨10019, "A B", "t0", "reason", some ⟨10019, "A", "B", []⟩,
      "dev1", "Device 1", "Room A"⟩
    (.status 200 "") (by decide)
  have h2 := decision_verdict_behavior
    [("10019_1700000000",
      ⟨10019, "A B", "t0", "reason", some ⟨10019, "A", "B", []⟩,
        "dev1", "Device 1", "Room A"⟩)]
    "10019_1700000000"
    ⟨10019, "A B", "t0", "reason", some ⟨10019, "A", "B", []⟩,
      "dev1", "Device 1", "Room A"⟩
    (.transportErr "x") (by decide)
  exact ⟨by decide, h1.2.1,
    h1.2.2.1 ⟨10019, "A", "B", []⟩ (by decide) (by decide),
    h2.2.2.2.1 ⟨10019, "A", "B", []⟩ (by decide) (by decide),
    (h1.1 "unknown" (by decide)).1⟩

/-! ## Sync-worker trace lemmas. -/

theorem countCreates_append (u : Int) (e1 e2 : List RemoteEv) :
    countCreates u (e1 ++ e2) = countCreates u e1 + countCreates u e2 := by
  induction e1 with
  | nil => simp [countCreates]
  | cons e rest ih =>
    cases e with
    | getStudent a b => simpa [countCreates] using ih
    | postStudent a b =>
      cases b
      · simpa [countCreates] using ih
      · simp [countCreates, ih]
        omega

theorem postInv_refl (u : Int) (a : List Int) : PostInv u a a [] :=
  ⟨id, fun _ => rfl, Nat.zero_le 1, fun h => by simp [countCreates] at h⟩

theorem postInv_trans (u : Int) {a b c : List Int} {e1 e2 : List RemoteEv}
    (h1 : PostInv u a b e1) (h2 : PostInv u b c e2) :
    PostInv u a c (e1 ++ e2) := by
  obtain ⟨m1, z1, l1, i1⟩ := h1
  obtain ⟨m2, z2, l2, i2⟩ := h2
  refine ⟨fun h => m2 (m1 h), ?_, ?_, ?_⟩
  · intro h
    rw [countCreates_append, z1 h, z2 (m1 h)]
  · rw [countCreates_append]
    rcases Nat.eq_zero_or_pos (countCreates u e1) with h0 | hp
    · rw [h0]
      simpa using l2
    · rw [z2 (i1 hp)]
      simpa using l1
  · rw [countCreates_append]
    intro h
    rcases Nat.eq_zero_or_pos (countCreates u e2) with h0 | hp
    · exact m2 (i1 (by omega))
    · exact i2 hp

theorem postInv_processRow (u : Int) (g p : Nat → Int → Bool)
    (rem : List Int) (t : Nat) (r : MRow) :
    PostInv u rem (processRow g p rem t r).remote
      (processRow g p rem t r).events := by
  by_cases hg : g t r.uid = true
  · simp only [processRow, if_pos hg]
    exact postInv_refl u rem
  · by_cases hm : r.uid ∈ rem
    · simp only [processRow, if_neg hg, if_pos hm]
      refine ⟨id, fun _ => by simp [countCreates], by simp [countCreates],
        fun h => ?_⟩
      simp [countCreates] at h
    · by_cases hp : p t r.uid = true
      · simp only [processRow, if_neg hg, if_neg hm, if_pos hp]
        refine ⟨fun h => List.mem_cons_of_mem _ h, ?_, ?_, ?_⟩
        · intro h
          by_cases he : r.uid = u
          · exact absurd (he ▸ h) hm
          · simp [countCreates, he]
        · by_cases he : r.uid = u <;> simp [countCreates, he]
        · intro h
          by_cases he : r.uid = u
          · rw [← he]
            exact List.mem_cons_self _ _
          · simp [countCreates, he] at h
      · simp only [processRow, if_neg hg, if_neg hm, if_neg hp]
        refine ⟨id, fun _ => by simp [countCreates], by simp [countCreates],
          fun h => ?_⟩
        simp [countCreates] at h

theorem postInv_runRows (u : Int) (g p : Nat → Int → Bool)
    (rem : List Int) (t : Nat) (rows : List MRow) :
    PostInv u rem (runRows g p rem t rows).remote
      (runRows g p rem t rows).events := by
  induction rows generalizing rem t with
  | nil => exact postInv_refl u rem
  | cons r rs ih =>
    by_cases hc : isCandidate r = true
    · simp only [runRows, if_pos hc]
      exact postInv_trans u (postInv_processRow u g p rem t r)
        (ih (processRow g p rem t r).remote (processRow g p rem t r).tick)
    · simp only [runRows, if_neg hc]
      exact ih rem t

theorem postInv_runPass (u : Int) (g p : Nat → Int → Bool) (st : SyncState) :
    PostInv u st.remote (runPass g p st).1.remote (runPass g p st).2 :=
  postInv_runRows u g p st.remote st.tick st.rows

theorem postInv_runPasses (u : Int) (onl : Nat → Bool)
    (g p : Nat → Int → Bool) (n : Nat) (st : SyncState) :
    PostInv u st.remote (runPasses onl g p n st).1.remote
      (runPasses onl g p n st).2 := by
  induction n generalizing st with
  | zero => exact postInv_refl u st.remote
  | succ n ih =>
    by_cases ho : onl n = true
    · simp only [runPasses, if_pos ho]
      exact postInv_trans u (postInv_runPass u g p st) (ih (runPass g p st).1)
    · simp only [runPasses, if_neg ho]
      simpa using ih st

/-- C4: across any number of worker passes, at most one POST /students/
for a given uid actually creates a record; a candidate whose GET
/students/{uid} finds the student (uid already remote) is marked synced
with no POST issued (only the [getStudent uid true] event), and the
end-of-pass cleanup leaves no synced row behind. -/
theorem sync_worker_at_most_one_create (onl : Nat → Bool)
    (g p : Nat → Int → Bool) (n : Nat) (st : SyncState) (u : Int)
    (rem : List Int) (t : Nat) (r : MRow)
    (hget : g t r.uid = false) (hmem : r.uid ∈ rem) :
    countCreates u (runPasses onl g p n st).2 ≤ 1
    ∧ processRow g p rem t r
      = ⟨{ r with status := .synced, attempts := r.attempts + 1 }, rem, t + 1,
         [.getStudent r.uid true]⟩
    ∧ countCreates r.uid [RemoteEv.getStudent r.uid true] = 0
    ∧ ∀ r' ∈ (runPass g p st).1.rows, r'.status ≠ .synced := by
  refine ⟨(postInv_runPasses u onl g p n st).2.2.1, ?_, rfl, ?_⟩
  · have hg' : ¬ (g t r.uid = true) := by simp [hget]
    simp only [processRow, if_neg hg', if_pos hmem]
  · intro r' hr'
    simp only [runPass] at hr'
    have := (List.mem_filter.mp hr').2
    intro he
    simp [he] at this

/-- C4 witness: a single pending row synced against an initially empty
remote over two online passes. -/
theorem sync_worker_at_most_one_create_witness :
    ((fun _ _ => false : Nat → Int → Bool) 0 (5 : Int) = false
      ∧ (5 : Int) ∈ [(5 : Int)])
    ∧ (countCreates 5
        (runPasses (fun _ => true) (fun _ _ => false) (fun _ _ => true) 2
          ⟨[⟨5, .pending, 0⟩], [], 0⟩).2 ≤ 1
      ∧ processRow (fun _ _ => false) (fun _ _ => true) [5] 0 ⟨5, .pending, 0⟩
        = ⟨⟨5, .synced, 1⟩, [5], 1, [.getStudent 5 true]⟩
      ∧ ∀ r' ∈ (runPass (fun _ _ => false) (fun _ _ => true)
          ⟨[⟨5, .pending, 0⟩], [], 0⟩).1.rows, r'.status ≠ .synced) := by
  have h := sync_worker_at_most_one_create (fun _ => true) (fun _ _ => false)
    (fun _ _ => true) 2 ⟨[⟨5, .pending, 0⟩], [], 0⟩ 5 [5] 0 ⟨5, .pending, 0⟩
    rfl (by decide)
  exact ⟨⟨rfl, by decide⟩, h.1, h.2.1, h.2.2.2⟩

/-! ## Non-candidate preservation lemmas for the retry cap. -/

theorem processRow_row_uid (g p : Nat → Int → Bool) (rem : List Int)
    (t : Nat) (r : MRow) : (processRow g p rem t r).row.uid = r.uid := by
  by_cases hg : g t r.uid = true
  · simp [processRow, hg]
  · by_cases hm : r.uid ∈ rem
    · simp [processRow, hg, hm]
    · by_cases hp : p t r.uid = true <;> simp [processRow, hg, hm, hp]

theorem processRow_events_uid (g p : Nat → Int → Bool) (rem : List Int)
    (t : Nat) (r : MRow) :
    ∀ e ∈ (processRow g p rem t r).events, evUid e = r.uid := by
  intro e he
  by_cases hg : g t r.uid = true
  · simp [processRow, hg] at he
  · by_cases hm : r.uid ∈ rem
    · simp [processRow, hg, hm] at he
      rw [he]
      rfl
    · by_cases hp : p t r.uid = true <;>
        · simp [processRow, hg, hm, hp] at he
          rcases he with rfl | rfl <;> rfl

theorem runRows_keeps_nonCandidate (g p : Nat → Int → Bool)
    (rem : List Int) (t : Nat) (rows : List MRow) (r0 : MRow)
    (h0 : r0 ∈ rows) (hc : isCandidate r0 = false) :
    r0 ∈ (runRows g p rem t rows).rows := by
  induction rows generalizing rem t with
  | nil => cases h0
  | cons r rs ih =>
    rcases List.mem_cons.mp h0 with rfl | hmem
    · have hc' : ¬ (isCandidate r0 = true) := by simp [hc]
      simp only [runRows, if_neg hc']
      exact List.mem_cons_self _ _
    · by_cases hcr : isCandidate r = true
      · simp only [runRows, if_pos hcr]
        exact List.mem_cons_of_mem _
          (ih (processRow g p rem t r).remote (processRow g p rem t r).tick hmem)
      · simp only [runRows, if_neg hcr]
        exact List.mem_cons_of_mem _ (ih rem t hmem)

theorem runRows_noCand (g p : Nat → Int → Bool) (rem : List Int) (t : Nat)
    (rows : List MRow) (u : Int) (h : NoCandUid u rows) :
    NoCandUid u (runRows g p rem t rows).rows := by
  induction rows generalizing rem t with
  | nil => exact fun r hr => absurd hr (List.not_mem_nil r)
  | cons r rs ih =>
    have htail : NoCandUid u rs := fun r' hr' => h r' (List.mem_cons_of_mem r hr')
    by_cases hcr : isCandidate r = true
    · have hru : r.uid ≠ u := by
        intro he
        rw [h r (List.mem_cons_self r rs) he] at hcr
        cases hcr
      simp only [runRows, if_pos hcr]
      intro r' hr' he
      rcases List.mem_cons.mp hr' with rfl | hmem
      · rw [processRow_row_uid] at he
        exact absurd he hru
      · exact ih (processRow g p rem t r).remote (processRow g p rem t r).tick
          htail r' hmem he
    · simp only [runRows, if_neg hcr]
      intro r' hr' he
      rcases List.mem_cons.mp hr' with rfl | hmem
      · exact h r' (List.mem_cons_self r' rs) he
      · exact ih rem t htail r' hmem he

theorem runRows_events_ne (g p : Nat → Int → Bool) (rem : List Int) (t : Nat)
    (rows : List MRow) (u : Int) (h : NoCandUid u rows) :
    ∀ e ∈ (runRows g p rem t rows).events, evUid e ≠ u := by
  induction rows generalizing rem t with
  | nil => intro e he; cases he
  | cons r rs ih =>
    have htail : NoCandUid u rs := fun r' hr' => h r' (List.mem_cons_of_mem r hr')
    by_cases hcr : isCandidate r = true
    · have hru : r.uid ≠ u := by
        intro he
        rw [h r (List.mem_cons_self r rs) he] at hcr
        cases hcr
      simp only [runRows, if_pos hcr]
      intro e he
      rcases List.mem_append.mp he with h1 | h2
      · rw [processRow_events_uid g p rem t r e h1]
        exact hru
      · exact ih (processRow g p rem t r).remote (processRow g p rem t r).tick
          htail e h2
    · simp only [runRows, if_neg hcr]
      exact ih rem t htail

theorem runPass_keeps (g p : Nat → Int → Bool) (st : SyncState) (r : MRow)
    (hmem : r ∈ st.rows) (hc : isCandidate r = false)
    (hs : r.status ≠ .synced) : r ∈ (runPass g p st).1.rows := by
  simp only [runPass]
  exact List.mem_filter.mpr
    ⟨runRows_keeps_nonCandidate g p st.remote st.tick st.rows r hmem hc,
     by simp [hs]⟩

theorem runPass_noCand (g p : Nat → Int → Bool) (st : SyncState) (u : Int)
    (h : NoCandUid u st.rows) : NoCandUid u (runPass g p st).1.rows := by
  intro r' hr' he
  simp only [runPass] at hr'
  exact runRows_noCand g p st.remote st.tick st.rows u h r'
    (List.mem_filter.mp hr').1 he

theorem runPasses_keeps (onl : Nat → Bool) (g p : Nat → Int → Bool) (n : Nat)
    (st : SyncState) (r : MRow) (hmem : r ∈ st.rows)
    (hc : isCandidate r = false) (hs : r.status ≠ .synced)
    (hnc : NoCandUid r.uid st.rows) :
    r ∈ (runPasses onl g p n st).1.rows
    ∧ NoCandUid r.uid (runPasses onl g p n st).1.rows
    ∧ ∀ e ∈ (runPasses onl g p n st).2, evUid e ≠ r.uid := by
  induction n generalizing st with
  | zero => exact ⟨hmem, hnc, fun e he => absurd he (List.not_mem_nil e)⟩
  | succ n ih =>
    by_cases ho : onl n = true
    · simp only [runPasses, if_pos ho]
      obtain ⟨m1, n1, e1⟩ := ih (runPass g p st).1
        (runPass_keeps g p st r hmem hc hs) (runPass_noCand g p st r.uid hnc)
      refine ⟨m1, n1, ?_⟩
      intro e he
      rcases List.mem_append.mp he with h1 | h2
      · exact runRows_events_ne g p st.remote st.tick st.rows r.uid hnc e h1
      · exact e1 e h2
    · simp only [runPasses, if_neg ho]
      obtain ⟨m1, n1, e1⟩ := ih st hmem hnc
      exact ⟨m1, n1, by simpa using e1⟩

/-- C7: the worker's candidate set is exactly the rows with sync_status
pending plus those with sync_status failed and fewer than three attempts;
a row with sync_status failed and at least three attempts (no other row
sharing its uid being a candidate) survives every later pass unchanged
and the worker issues no remote call carrying its uid. -/
theorem failed_rows_retired (onl : Nat → Bool) (g p : Nat → Int → Bool)
    (n : Nat) (st : SyncState) (r : MRow) (hr : r ∈ st.rows)
    (hs : r.status = .failed) (ha : 3 ≤ r.attempts)
    (hu : ∀ r' ∈ st.rows, r'.uid = r.uid → isCandidate r' = false) :
    r ∈ (runPasses onl g p n st).1.rows
    ∧ (∀ e ∈ (runPasses onl g p n st).2, evUid e ≠ r.uid)
    ∧ (∀ row : MRow, isCandidate row = true ↔
        (row.status = SyncStatus.pending ∨
         (row.status = SyncStatus.failed ∧ row.attempts < 3))) := by
  have hc : isCandidate r = false := by
    simp [isCandidate, hs]
    omega
  have hsn : r.status ≠ .synced := by
    rw [hs]
    intro h
    cases h
  obtain ⟨m1, _, e1⟩ := runPasses_keeps onl g p n st r hr hc hsn hu
  refine ⟨m1, e1, ?_⟩
  intro row
  cases hrow : row.status <;> simp [isCandidate, hrow]

/-- C7 witness: a failed row with three attempts is untouched by two
online passes and the trace carries no call for its uid. -/
theorem failed_rows_retired_witness :
    ((⟨7, .failed, 3⟩ : MRow) ∈ [(⟨7, .failed, 3⟩ : MRow)]
      ∧ (⟨7, .failed, 3⟩ : MRow).status = .failed
      ∧ 3 ≤ (⟨7, .failed, 3⟩ : MRow).attempts
      ∧ ∀ r' ∈ [(⟨7, .failed, 3⟩ : MRow)], r'.uid = (⟨7, .failed, 3⟩ : MRow).uid →
          isCandidate r' = false)
    ∧ ((⟨7, .failed, 3⟩ : MRow) ∈ (runPasses (fun _ => true) (fun _ _ => false)
        (fun _ _ => true) 2 ⟨[⟨7, .failed, 3⟩], [], 0⟩).1.rows
      ∧ ∀ e ∈ (runPasses (fun _ => true) (fun _ _ => false) (fun _ _ => true) 2
          ⟨[⟨7, .failed, 3⟩], [], 0⟩).2, evUid e ≠ (⟨7, .failed, 3⟩ : MRow).uid) := by
  have h := failed_rows_retired (fun _ => true) (fun _ _ => false)
    (fun _ _ => true) 2 ⟨[⟨7, .failed, 3⟩], [], 0⟩ ⟨7, .failed, 3⟩
    (by decide) rfl (by decide) (by decide)
  exact ⟨⟨by decide, rfl, by decide, by decide⟩, h.1, h.2.1⟩
